import Mathlib

/-!
Verification of the schema-driven game-config engine
(`server/src/Python/game_config_manager.py`).

The engine translates between a declarative configuration schema
(sections, fields, types, defaults) and several on-disk formats
(properties, configobj/INI, YAML, HOCON, JSON, TOML).  This file gives a
shallow embedding of the engine: Python dictionaries become ordered
association lists, Python values become the inductive `Val`, the
filesystem becomes an explicit `FS` state, and each `_parse_with_*` /
`_save_with_*` adapter together with the `read_game_config` /
`save_game_config` orchestration is translated function by function.
Exceptions are modelled with `Option` (a `none` propagates to the
enclosing `except` handler exactly as a raised Python exception does).

Third-party format libraries (configobj, ruamel.yaml, pyhocon, json,
toml) are external collaborators: a structured file is stored as the
document that the library would hand to (or receive from) the engine,
tagged with the writing library (`FileData`).  Library behaviour is
modelled only at this boundary and each such modelling decision is
documented on the definition where it is made.
-/

namespace GameConfig

/-- Python runtime values as they occur in this engine: strings, ints,
booleans, floats (kept symbolically as their decimal literal, since no
claim computes with float arithmetic), lists and (string-keyed) dicts. -/
inductive Val where
  | vStr (s : String)
  | vInt (n : Int)
  | vBool (b : Bool)
  | vFloat (lit : String)
  | vList (l : List Val)
  | vDict (d : List (String × Val))

/-- Ordered string-keyed association list standing for a Python `dict`
(insertion order preserved, as in CPython). -/
abbrev Dict (α : Type) := List (String × α)

/-- One decoded config section: field name to value. -/
abbrev SectionData := Dict Val

/-- A decoded record: section key to section data
(`result` in the Python adapters). -/
abbrev Record := Dict SectionData

/-- A structured document as exchanged with a format library:
the top-level mapping of a YAML/JSON/TOML/INI file. -/
abbrev ConfigDoc := Dict Val

/-- Lookup in a Python dict (first, and with `dictSet`-maintained
uniqueness the only, binding of the key). -/
def dictGet? {α : Type} : Dict α → String → Option α
  | [], _ => none
  | (k', v) :: rest, k => if k' = k then some v else dictGet? rest k

/-- Python `d[k] = v`: replace in place if the key is present
(keeping its position, as CPython does), else append. -/
def dictSet {α : Type} : Dict α → String → α → Dict α
  | [], k, v => [(k, v)]
  | (k', v') :: rest, k, v =>
    if k' = k then (k, v) :: rest else (k', v') :: dictSet rest k v

/-- Two-level lookup: record, section key, field name. -/
def recordLookup (r : Record) (key name : String) : Option Val :=
  (dictGet? r key).bind fun sd => dictGet? sd name

/-! ### Character-level string utilities

The engine does its own character scanning (the nested mini-language,
properties lines).  We mirror Python's string primitives over `List Char`
so that the later inductive proofs stay at the list level; `String` is a
wrapper (`String.mk` / `String.toList`). -/

/-- Whitespace as stripped by Python `str.strip()` (the characters that
actually occur in config files). -/
def wsChar (c : Char) : Bool :=
  c = ' ' || c = '\t' || c = '\n' || c = '\r'

/-- Python `str.strip()` on a character list. -/
def trimChars (l : List Char) : List Char :=
  ((l.dropWhile wsChar).reverse.dropWhile wsChar).reverse

/-- Python `str.split(sep)` on a character list (used for file lines). -/
def splitOnCharAux (sep : Char) : List Char → List Char → List (List Char)
  | [], cur => [cur.reverse]
  | c :: rest, cur =>
    if c = sep then cur.reverse :: splitOnCharAux sep rest []
    else splitOnCharAux sep rest (c :: cur)

/-- Split a character list on a separator character. -/
def splitOnChar (sep : Char) (l : List Char) : List (List Char) :=
  splitOnCharAux sep l []

/-- Python `s.split(sep, 1)`: the part before the first separator and the
part after it (whole string and empty tail when the separator is absent,
callers always guard with a containment check first). -/
def splitAtFirstChar (sep : Char) : List Char → List Char × List Char
  | [] => ([], [])
  | c :: rest =>
    if c = sep then ([], rest)
    else
      let (a, b) := splitAtFirstChar sep rest
      (c :: a, b)

/-- Python `sep.join(parts)` at the character level. -/
def intercalateChars (sep : Char) : List (List Char) → List Char
  | [] => []
  | [t] => t
  | t :: rest => t ++ sep :: intercalateChars sep rest

/-- Python `str.lower()` (ASCII case folding suffices here). -/
def strLower (s : String) : String :=
  String.mk (s.toList.map Char.toLower)

/-- Whether the string starts with the given character
(`str.startswith` for a one-character prefix). -/
def strHeadIs (s : String) (c : Char) : Bool :=
  s.toList.head? = some c

/-- Whether the string ends with the given character
(`str.endswith` for a one-character suffix). -/
def strLastIs (s : String) (c : Char) : Bool :=
  s.toList.getLast? = some c

/-- Python `','.join(parts)` on strings. -/
def joinComma (ts : List String) : String :=
  String.mk (intercalateChars ',' (ts.map String.toList))

/-- Python `'\n'.join(lines)` on strings. -/
def joinLines (ts : List String) : String :=
  String.mk (intercalateChars '\n' (ts.map String.toList))

/-- Whether `needle` is a leading segment of `hay`. -/
def charsHasPre : List Char → List Char → Bool
  | [], _ => true
  | _ :: _, [] => false
  | a :: as, b :: bs => a = b && charsHasPre as bs

/-- Python `needle in hay` for strings (substring containment). -/
def charsHasSub (needle : List Char) : List Char → Bool
  | [] => charsHasPre needle []
  | c :: rest => charsHasPre needle (c :: rest) || charsHasSub needle rest

/-! ### Python value primitives -/

mutual

/-- Python `repr` for the values this engine handles (string escaping is
not modelled; only list/dict element rendering matters here). -/
def pyRepr : Val → String
  | .vStr s => "'" ++ s ++ "'"
  | .vInt n => toString n
  | .vBool b => if b then "True" else "False"
  | .vFloat lit => lit
  | .vList l => "[" ++ ", ".intercalate (pyReprList l) ++ "]"
  | .vDict d => "\x7b" ++ ", ".intercalate (pyReprDict d) ++ "\x7d"

def pyReprList : List Val → List String
  | [] => []
  | v :: rest => pyRepr v :: pyReprList rest

def pyReprDict : List (String × Val) → List String
  | [] => []
  | (k, v) :: rest => ("'" ++ k ++ "': " ++ pyRepr v) :: pyReprDict rest

end

/-- Python `str(value)` (as used in f-strings and `str(...)` casts). -/
def pyStr : Val → String
  | .vStr s => s
  | other => pyRepr other

/-- Python truthiness (`if value:`). A float literal is falsy exactly when
it denotes zero, i.e. contains no nonzero digit. -/
def pyTruthy : Val → Bool
  | .vStr s => !s.isEmpty
  | .vInt n => n != 0
  | .vBool b => b
  | .vFloat lit => lit.toList.any fun c => c.isDigit && c ≠ '0'
  | .vList l => !l.isEmpty
  | .vDict d => !d.isEmpty

/-- Decimal digits to a natural number. -/
def digitsToNat (l : List Char) : Nat :=
  l.foldl (fun acc c => acc * 10 + (c.toNat - '0'.toNat)) 0

/-- Python `int(s)` for a string: strip whitespace, optional sign, base-10
digits; `none` models the raised `ValueError`.  (Underscore grouping and
non-ASCII digits are not modelled.) -/
def pyIntOfString? (s : String) : Option Int :=
  let t := trimChars s.toList
  let (neg, ds) :=
    match t with
    | '-' :: rest => (true, rest)
    | '+' :: rest => (false, rest)
    | _ => (false, t)
  if ds ≠ [] ∧ ds.all Char.isDigit then
    some (if neg then -(digitsToNat ds : Int) else (digitsToNat ds : Int))
  else none

/-- Python `float(s)` validity for the literal shapes occurring in config
values: optional sign, digits with at most one decimal point and at least
one digit.  Returns the stripped literal; `none` models `ValueError`.
(Exponent notation and `inf`/`nan` are not modelled.) -/
def pyFloatOfString? (s : String) : Option String :=
  let t := trimChars s.toList
  let core :=
    match t with
    | '-' :: rest => rest
    | '+' :: rest => rest
    | _ => t
  if core ≠ [] ∧ core.all (fun c => c.isDigit || c = '.') ∧
      (core.filter (· = '.')).length ≤ 1 ∧ (core.filter Char.isDigit) ≠ [] then
    some (String.mk t)
  else none

/-- Python `int(float-literal)`: truncation toward zero of a plain decimal
literal (the only float shapes `pyFloatOfString?` admits). -/
def pyIntOfFloatLit? (s : String) : Option Int :=
  match pyFloatOfString? s with
  | none => none
  | some lit =>
    let t := lit.toList
    let (neg, core) :=
      match t with
      | '-' :: rest => (true, rest)
      | '+' :: rest => (false, rest)
      | _ => (false, t)
    let ipart := core.takeWhile Char.isDigit
    some (if neg then -(digitsToNat ipart : Int) else (digitsToNat ipart : Int))

/-- Python `int(value)` on an engine value; `none` models the raised
`ValueError`/`TypeError`.  (`bool` is an `int` subclass in Python.) -/
def pyInt? : Val → Option Val
  | .vStr s => (pyIntOfString? s).map .vInt
  | .vInt n => some (.vInt n)
  | .vBool b => some (.vInt (if b then 1 else 0))
  | .vFloat lit => (pyIntOfFloatLit? lit).map .vInt
  | _ => none

/-- Python `float(value)` on an engine value; `none` models the raised
error. -/
def pyFloat? : Val → Option Val
  | .vStr s => (pyFloatOfString? s).map .vFloat
  | .vInt n => some (.vFloat (toString n ++ ".0"))
  | .vBool b => some (.vFloat (if b then "1.0" else "0.0"))
  | .vFloat lit => some (.vFloat lit)
  | _ => none

/-- The boolean coercion used throughout the engine:
`str(value).lower() in ('true', '1', 'yes', 'on')`. -/
def pyBoolCoerce (v : Val) : Bool :=
  ["true", "1", "yes", "on"].contains (strLower (pyStr v))

/-- Python `name in value` where `value` came from a parsed document:
key membership for dicts, substring test for strings, element equality
for lists; `none` models the `TypeError` raised on other types. -/
def pyIn? (k : String) : Val → Option Bool
  | .vDict d => some (dictGet? d k).isSome
  | .vStr s => some (charsHasSub k.toList s.toList)
  | .vList l =>
    some (l.any fun x => match x with | .vStr s => s = k | _ => false)
  | _ => none

/-- Python `value[name]` for a string key: dict item access; `none`
models the `TypeError` raised when subscripting a non-dict with a
string. -/
def pyGetItem? (v : Val) (k : String) : Option Val :=
  match v with
  | .vDict d => dictGet? d k
  | _ => none

/-! ### Schema model

Schemas are YAML mappings read by the engine with `.get` accessors; the
attributes actually consulted are translated into structure fields
(`Option` for the ones the code reads with a fallback). -/

/-- One entry of a nested field's `nested_fields` list. -/
structure NestedField where
  name : String
  type? : Option String := none

/-- One schema field (`field['name']` is accessed unconditionally, the
rest through `.get`). -/
structure FieldSpec where
  name : String
  type? : Option String := none
  default? : Option Val := none
  description? : Option String := none
  display? : Option String := none
  nestedFields : List NestedField := []

/-- One schema section: optional `key` (its absence makes the structured
adapters use the document root and the key fall back to `"default"`) and
the ordered field list. -/
structure SchemaSection where
  key? : Option String := none
  fields : List FieldSpec := []

/-- A config schema: `meta.config_file` and the `sections` list. -/
structure GameSchema where
  configFile : String
  sections : List SchemaSection := []

/-- `section.get('key', 'default')`. -/
def sKey (s : SchemaSection) : String := s.key?.getD "default"

/-- First schema section whose key matches (the `for ... break` scans in
the save adapters). -/
def findSchemaSection (schema : GameSchema) (key : String) :
    Option SchemaSection :=
  schema.sections.find? fun s => sKey s = key

/-- `_get_default_values`: every section key (or `"default"`) mapped to
every declared field's `default`, or `''` when the field has none. -/
def getDefaultValues (schema : GameSchema) : Record :=
  schema.sections.foldl
    (fun result s =>
      let inner := s.fields.foldl
        (fun m f => dictSet m f.name (f.default?.getD (.vStr ""))) []
      dictSet result (sKey s) inner)
    []

/-! ### Nested-field codec

Decode is the inline scanner of `_parse_with_configobj` (lines 210-263):
a configobj value that is a list is first recombined into one string
(configobj itself splits on top-level commas), then a parenthesized
string is split on commas outside quotes with each token stripped, and
anything else becomes the empty list.  Encode is the nested branch of
`_save_with_raw_write` (lines 463-489). -/

/-- The quote-aware comma splitter (lines 230-253): one active-quote
state with its character; a comma outside quotes ends the current token;
tokens are stripped and empty tokens dropped. -/
def splitNestedAux : List Char → Bool → Option Char → List Char →
    List (List Char) → List (List Char)
  | [], _, _, cur, ps =>
    if (trimChars cur).isEmpty then ps else ps ++ [trimChars cur]
  | c :: rest, inQ, qc, cur, ps =>
    if (c = '"' ∨ c = '\'') ∧ inQ = false then
      splitNestedAux rest true (some c) (cur ++ [c]) ps
    else if some c = qc ∧ inQ = true then
      splitNestedAux rest false none (cur ++ [c]) ps
    else if c = ',' ∧ inQ = false then
      splitNestedAux rest inQ qc []
        (if (trimChars cur).isEmpty then ps else ps ++ [trimChars cur])
    else
      splitNestedAux rest inQ qc (cur ++ [c]) ps

/-- Split the inner content of a parenthesized nested value into its
`key=value` tokens. -/
def splitNestedParams (inner : List Char) : List (List Char) :=
  splitNestedAux inner false none [] []

/-- The string branch of nested decoding (lines 225-263): strip the outer
parentheses and split; a non-parenthesized string yields `[]`
(line 263). -/
def parseNestedChars (cs : List Char) : Val :=
  if cs.head? = some '(' ∧ cs.getLast? = some ')' then
    let inner := (cs.drop 1).dropLast
    if inner.isEmpty then .vList []
    else .vList ((splitNestedParams inner).map fun t => .vStr (String.mk t))
  else .vList []

/-- All-or-nothing extraction of the character lists of a Python list of
strings; `none` models the `TypeError`/`AttributeError` raised when a
non-string element reaches `startswith` or `','.join`. -/
def allStrChars? : List Val → Option (List (List Char))
  | [] => some []
  | .vStr s :: rest => (allStrChars? rest).map fun ls => s.toList :: ls
  | _ :: _ => none

/-- The list recombination step (lines 213-223): a configobj list value
is joined back with commas, adding parentheses unless the first element
starts with `(` and the last ends with `)`. -/
def recombineNestedList (elems : List Val) : Option (List Char) :=
  match elems with
  | [] => some ('(' :: [')'])
  | .vStr h :: _ =>
    if strHeadIs h '(' then
      match elems.getLast? with
      | some (.vStr t) =>
        if strLastIs t ')' then
          (allStrChars? elems).map fun ls => intercalateChars ',' ls
        else
          (allStrChars? elems).map fun ls =>
            '(' :: intercalateChars ',' ls ++ [')']
      | _ => none
    else
      (allStrChars? elems).map fun ls =>
        '(' :: intercalateChars ',' ls ++ [')']
  | _ :: _ => none

/-- Full nested decoding of a raw configobj value (lines 210-263);
`none` models an exception propagating to the adapter's `except`. -/
def parseNestedRaw : Val → Option Val
  | .vList elems =>
    (recombineNestedList elems).map fun cs => parseNestedChars cs
  | .vStr s => some (parseNestedChars s.toList)
  | _ => some (.vList [])

/-- `element.split('=', 1)` for a nested `key=value` token. -/
def splitFirstEq (e : String) : String × String :=
  let (a, b) := splitAtFirstChar '=' e.toList
  (String.mk a, String.mk b)

/-- Nested encode, per element (lines 470-487): a sub-value whose
declared nested type is `string`, which is non-empty and not already
double-quoted, gets wrapped in double quotes; everything else is kept
verbatim. -/
def formatNestedElement (nfs : List NestedField) (e : String) : String :=
  if e.toList.any (· = '=') then
    let (key, value) := splitFirstEq e
    let ntype : Option String :=
      match nfs.find? (fun nf => nf.name = key) with
      | some nf => nf.type?
      | none => none
    if ntype == some "string" && !value.isEmpty &&
        !(strHeadIs value '"' && strLastIs value '"') then
      key ++ "=\"" ++ value ++ "\""
    else e
  else e

/-- Nested encode of a whole value (lines 467-489): format each element
and wrap the comma-joined result in parentheses; `none` models the
`TypeError` on a non-string element. -/
def formatNestedValue (nfs : List NestedField) (elems : List Val) :
    Option String :=
  (allStrChars? elems).map fun ls =>
    "(" ++ joinComma ((ls.map String.mk).map (formatNestedElement nfs)) ++ ")"

/-! ### Filesystem and library boundary

The filesystem is a mapping from absolute path to file content plus the
set of directories `os.access(dir, os.W_OK)` reports writable.  A file
written through a format library is stored as the structured document
handed to that library, tagged with the library; a file written with
plain `f.write` is stored as its text. -/

/-- On-disk file content.  For a library-written file the document is
kept (the library's render/parse round-trip at this boundary is the
library's own correctness, out of the engine's scope). -/
inductive FileData where
  | text (s : String)
  | jsonDoc (d : ConfigDoc)
  | yamlDoc (d : ConfigDoc)
  | tomlDoc (d : ConfigDoc)
  | iniDoc (d : ConfigDoc)

/-- Whether `os.path.getsize` returns `0` for this content.
`json.dump` emits at least `\x7b\x7d` and ruamel's `yaml.dump` at least
`\x7b\x7d\n`, so those files are never empty; `toml.dump` of an empty
mapping and `ConfigObj.write()` of an empty config both emit nothing at
all, so those files are empty exactly when the document is. -/
def FileData.sizeIsZero : FileData → Bool
  | .text s => s.isEmpty
  | .jsonDoc _ => false
  | .yamlDoc _ => false
  | .tomlDoc d => d.isEmpty
  | .iniDoc d => d.isEmpty

/-- The filesystem state visible to the engine. -/
structure FS where
  files : Dict FileData := []
  writableDirs : List String := []

/-- `os.path.exists`. -/
def FS.fileExists (fs : FS) (p : String) : Bool :=
  (dictGet? fs.files p).isSome

/-- Read a file's content (used at each library/open boundary). -/
def FS.read? (fs : FS) (p : String) : Option FileData :=
  dictGet? fs.files p

/-- `open(p, 'w')` followed by a full write. -/
def FS.write (fs : FS) (p : String) (d : FileData) : FS :=
  { fs with files := dictSet fs.files p d }

/-- `os.path.join(a, b)` for POSIX paths as used here. -/
def osPathJoin (a b : String) : String :=
  if strHeadIs b '/' then b
  else if a = "" ∨ strLastIs a '/' then a ++ b
  else a ++ "/" ++ b

/-- `os.path.dirname(p)` for POSIX paths. -/
def osPathDirname (p : String) : String :=
  let parts := splitOnChar '/' p.toList
  if parts.length ≤ 1 then ""
  else
    let head := intercalateChars '/' parts.dropLast
    if head.isEmpty ∧ strHeadIs p '/' then "/" else String.mk head

/-- View a file as the mapping `configobj.ConfigObj(path)` would return:
a file the library itself wrote round-trips to its document; a missing
file yields an empty config.  Parsing arbitrary INI text is the
library's job and is not modelled (treated as a parse failure). -/
def configObjView : Option FileData → Option ConfigDoc
  | none => some []
  | some (.iniDoc d) => some d
  | some _ => none

/-- View a file as `json.load` would return it (top-level object files
only, which is the only shape this engine writes); anything else is a
parse error. -/
def jsonView : Option FileData → Option ConfigDoc
  | some (.jsonDoc d) => some d
  | _ => none

/-- View a file as `toml.load` would return it. -/
def tomlView : Option FileData → Option ConfigDoc
  | some (.tomlDoc d) => some d
  | _ => none

/-- View a file as `yaml.load(...) or {}` would return it. -/
def yamlView : Option FileData → Option ConfigDoc
  | some (.yamlDoc d) => some d
  | _ => none

/-- View a file as `pyhocon.ConfigFactory.parse_file` would return it.
HOCON is a superset of JSON, so a file written by this engine's own
`json.dump`-based save path parses back to its document; other text is
not modelled. -/
def pyhoconView : Option FileData → Option ConfigDoc
  | some (.jsonDoc d) => some d
  | _ => none

/-! ### Per-field decoding -/

/-- The per-field conversion of `_parse_with_configobj`
(lines 210-273): nested fields go through the nested codec; otherwise a
declared `default` of Python type `bool`/`int`/`float` drives the
coercion; `none` models a raised conversion error (there is no per-field
handler in this adapter, so it propagates). -/
def coerceConfigobjField (f : FieldSpec) (v : Val) : Option Val :=
  if f.type? == some "nested" then parseNestedRaw v
  else
    match f.default? with
    | some (.vBool _) => some (.vBool (pyBoolCoerce v))
    | some (.vInt _) => pyInt? v
    | some (.vFloat _) => pyFloat? v
    | _ => some v

/-- Nested-field decoding of the JSON and TOML adapters (lines 684-699
and 813-826, which are identical): a native object becomes `key=value`
tokens (string values containing a space get double-quoted), a native
list passes through, anything else becomes `[]`. -/
def jsonNestedDecode (v : Val) : Val :=
  match v with
  | .vDict m =>
    .vList (m.map fun p =>
      match p.2 with
      | .vStr sv =>
        if sv.toList.any (· = ' ') then .vStr (p.1 ++ "=\"" ++ sv ++ "\"")
        else .vStr (p.1 ++ "=" ++ sv)
      | other => .vStr (p.1 ++ "=" ++ pyStr other))
  | .vList l => .vList l
  | _ => .vList []

/-- The per-field conversion of `_parse_with_json` and `_parse_with_toml`
(lines 683-709 and 810-836, identical): like the configobj one but
values already of the declared native type are accepted unconverted
(note Python's `bool` is an `int`, and `isinstance(v, (int, float))`
also admits `bool`). -/
def coerceStructuredField (f : FieldSpec) (v : Val) : Option Val :=
  if f.type? == some "nested" then some (jsonNestedDecode v)
  else
    match f.default? with
    | some (.vBool _) =>
      match v with
      | .vBool _ => some v
      | _ => some (.vBool (pyBoolCoerce v))
    | some (.vInt _) =>
      match v with
      | .vInt _ => some v
      | .vBool _ => some v
      | _ => pyInt? v
    | some (.vFloat _) =>
      match v with
      | .vInt _ => some v
      | .vFloat _ => some v
      | .vBool _ => some v
      | _ => pyFloat? v
    | _ => some v

/-- The inner field loop shared (up to the per-field conversion) by the
configobj, pyhocon and JSON adapters: for each declared field present in
the section source, convert and store it; an absent field is skipped
(explicitly *not* defaulted, lines 277-279, 342, 713). -/
def fieldsLoop (coerce : FieldSpec → Val → Option Val) (src : Val) :
    List FieldSpec → SectionData → Option SectionData
  | [], acc => some acc
  | f :: rest, acc =>
    match pyIn? f.name src with
    | none => none
    | some false => fieldsLoop coerce src rest acc
    | some true =>
      match pyGetItem? src f.name with
      | none => none
      | some v =>
        match coerce f v with
        | none => none
        | some v2 => fieldsLoop coerce src rest (dictSet acc f.name v2)

/-- The section loop of the configobj/pyhocon/JSON adapters: every
schema section gets an (initially empty) record section; when the
section key is present in the document its fields are decoded, otherwise
the section stays empty (lines 196-283, 333-345, 673-716). -/
def sectionsLoopKeyed (coerce : FieldSpec → Val → Option Val)
    (config : ConfigDoc) :
    List SchemaSection → Record → Option Record
  | [], acc => some acc
  | s :: rest, acc =>
    let key := sKey s
    let acc1 := dictSet acc key []
    match dictGet? config key with
    | none => sectionsLoopKeyed coerce config rest acc1
    | some src =>
      match fieldsLoop coerce src s.fields [] with
      | none => none
      | some inner => sectionsLoopKeyed coerce config rest (dictSet acc1 key inner)

/-- The section loop of the TOML adapter (lines 797-840): a section with
a declared `key` reads from `config.get(key, \x7b\x7d)`, a section
without one reads from the document root. -/
def sectionsLoopRooted (coerce : FieldSpec → Val → Option Val)
    (config : ConfigDoc) :
    List SchemaSection → Record → Option Record
  | [], acc => some acc
  | s :: rest, acc =>
    let key := sKey s
    let acc1 := dictSet acc key []
    let src : Val :=
      match s.key? with
      | some _ => (dictGet? config key).getD (.vDict [])
      | none => .vDict config
    match fieldsLoop coerce src s.fields [] with
    | none => none
    | some inner => sectionsLoopRooted coerce config rest (dictSet acc1 key inner)

/-! ### Parse adapters -/

/-- `_parse_with_configobj` (lines 188-291): the whole body sits in one
`try`, whose `except` returns an empty record — so any per-field
conversion error aborts the entire decode. -/
def parseWithConfigobj (fd? : Option FileData) (schema : GameSchema) :
    Record :=
  match configObjView fd? with
  | none => []
  | some config =>
    match sectionsLoopKeyed coerceConfigobjField config schema.sections [] with
    | some r => r
    | none => []

/-- `_parse_with_pyhocon` (lines 326-353): values are copied verbatim,
no coercion at all. -/
def parseWithPyhocon (fd? : Option FileData) (schema : GameSchema) :
    Record :=
  match pyhoconView fd? with
  | none => []
  | some config =>
    match sectionsLoopKeyed (fun _ v => some v) config schema.sections [] with
    | some r => r
    | none => []

/-- `_parse_with_json` (lines 666-722). -/
def parseWithJson (fd? : Option FileData) (schema : GameSchema) : Record :=
  match jsonView fd? with
  | none => []
  | some config =>
    match sectionsLoopKeyed coerceStructuredField config schema.sections [] with
    | some r => r
    | none => []

/-- `_parse_with_toml` (lines 790-846). -/
def parseWithToml (fd? : Option FileData) (schema : GameSchema) : Record :=
  match tomlView fd? with
  | none => []
  | some config =>
    match sectionsLoopRooted coerceStructuredField config schema.sections [] with
    | some r => r
    | none => []

/-- The field scan of `_parse_with_yaml` (lines 312-319).  The source
reads `config_source[field_name]` into the local variable `value`
(line 315) but — unlike every other adapter — never assigns it into
`result`: the `else` on line 317 attaches to the `for` as a `for/else`
whose body is `pass`.  Only the membership test and the item access are
observable (they can still raise on a non-mapping source); nothing is
stored. -/
def yamlFieldsScan (src : Val) : List FieldSpec → Option Unit
  | [] => some ()
  | f :: rest =>
    match pyIn? f.name src with
    | none => none
    | some false => yamlFieldsScan src rest
    | some true =>
      match pyGetItem? src f.name with
      | none => none
      | some _ => yamlFieldsScan src rest

/-- The section loop of `_parse_with_yaml` (lines 303-319): each schema
section is entered into the result as an empty mapping; the field values
are read but never stored (see `yamlFieldsScan`). -/
def yamlSectionsLoop (config : ConfigDoc) :
    List SchemaSection → Record → Option Record
  | [], acc => some acc
  | s :: rest, acc =>
    let key := sKey s
    let acc1 := dictSet acc key []
    let src : Val :=
      match s.key? with
      | some _ => (dictGet? config key).getD (.vDict [])
      | none => .vDict config
    match yamlFieldsScan src s.fields with
    | none => none
    | some _ => yamlSectionsLoop config rest acc1

/-- `_parse_with_yaml` (lines 293-324). -/
def parseWithYaml (fd? : Option FileData) (schema : GameSchema) : Record :=
  match yamlView fd? with
  | none => []
  | some config =>
    match yamlSectionsLoop config schema.sections [] with
    | some r => r
    | none => []

/-- Processing of one properties line (lines 555-597): strip, skip blank
and `#`/`!` comment lines; a line without `=` only logs a warning; the
key must be a declared field of the (single) section or the line is
skipped; `boolean`/`number` declared types drive the coercion and a
conversion failure is caught *per field*: a warning is recorded and the
raw string value is kept. -/
def propertiesLine (sec : SchemaSection)
    (st : SectionData × List String) (rawLine : List Char) :
    SectionData × List String :=
  let line := trimChars rawLine
  if line.isEmpty || line.head? = some '#' || line.head? = some '!' then st
  else if line.any (· = '=') then
    let (k0, v0) := splitAtFirstChar '=' line
    let key := String.mk (trimChars k0)
    let value := String.mk (trimChars v0)
    match sec.fields.find? (fun f => f.name = key) with
    | some fc =>
      let ftype := fc.type?.getD "string"
      if ftype = "boolean" then
        (dictSet st.1 key
           (.vBool (["true", "1", "yes", "on"].contains (strLower value))),
         st.2)
      else if ftype = "number" then
        match pyIntOfString? value with
        | some n => (dictSet st.1 key (.vInt n), st.2)
        | none =>
          match pyFloatOfString? value with
          | some fl => (dictSet st.1 key (.vFloat fl), st.2)
          | none =>
            (dictSet st.1 key (.vStr value),
             st.2 ++ ["type conversion failed: " ++ key])
      else (dictSet st.1 key (.vStr value), st.2)
    | none => st
  else (st.1, st.2 ++ ["malformed line " ++ String.mk line])

/-- `_parse_with_properties` (lines 535-606) together with its
warning-log output (the result record and the warnings the adapter
logs).  Only the first schema section is used; a missing file yields the
empty section with a warning. -/
def parseWithPropertiesFull (fd? : Option FileData) (schema : GameSchema) :
    Record × List String :=
  match schema.sections with
  | [] => ([], ["no sections defined in schema"])
  | sec :: _ =>
    let key := sKey sec
    match fd? with
    | some (.text s) =>
      let out := (splitOnChar '\n' s.toList).foldl (propertiesLine sec) ([], [])
      ([(key, out.1)], out.2)
    | none => ([(key, [])], ["config file does not exist"])
    | some _ => ([(key, [])], ["non-text file content not modelled"])

/-- `_parse_with_properties`, record part. -/
def parseWithProperties (fd? : Option FileData) (schema : GameSchema) :
    Record :=
  (parseWithPropertiesFull fd? schema).1

/-! ### Save adapters -/

/-- Result of one `_save_with_*` adapter: the filesystem after the call
and the boolean the adapter returns. -/
structure AdapterOut where
  fs : FS
  ok : Bool

/-- One field line of `_save_with_raw_write` (lines 454-494): the nested
branch for list values of declared nested fields, `f'{name} = {value}'`
otherwise; `none` models an exception from a non-string nested
element. -/
def rawWriteFieldLine (ss? : Option SchemaSection) (fn : String)
    (fv : Val) : Option String :=
  let fieldSchema? : Option FieldSpec :=
    match ss? with
    | some ss => ss.fields.find? fun f => f.name = fn
    | none => none
  match fieldSchema? with
  | some f =>
    if f.type? == some "nested" then
      match fv with
      | .vList elems =>
        (formatNestedValue f.nestedFields elems).map fun fo =>
          fn ++ " = " ++ fo
      | _ => some (fn ++ " = " ++ pyStr fv)
    else some (fn ++ " = " ++ pyStr fv)
  | none => some (fn ++ " = " ++ pyStr fv)

/-- `_save_with_raw_write` (lines 437-505): render `[section]` headers
and field lines, join with newlines and write the text. -/
def saveWithRawWrite (fs : FS) (path : String) (data : Record)
    (schema : GameSchema) : AdapterOut :=
  let lines? : Option (List String) :=
    data.foldlM
      (fun acc p =>
        let ss? := findSchemaSection schema p.1
        (p.2.foldlM
            (fun acc2 q =>
              (rawWriteFieldLine ss? q.1 q.2).map fun l => acc2 ++ [l])
            (acc ++ ["[" ++ p.1 ++ "]"])).map
          fun ls => ls ++ [""])
      []
  match lines? with
  | none => { fs := fs, ok := false }
  | some lines =>
    { fs := fs.write path (.text (joinLines lines)), ok := true }

/-- Whether the record contains a value for a schema-declared nested
field (the scan of lines 362-389 deciding between configobj and raw
write). -/
def recordHasNested (schema : GameSchema) (data : Record) : Bool :=
  data.any fun p =>
    match findSchemaSection schema p.1 with
    | some ss =>
      p.2.any fun q =>
        match ss.fields.find? (fun f => f.name = q.1) with
        | some f => f.type? == some "nested"
        | none => false
    | none => false

/-- The configobj update loop (lines 406-413): create missing sections,
then assign `str(value)` for every field; `none` models the `TypeError`
of assigning into a non-mapping section value. -/
def configObjUpdate (config : ConfigDoc) (data : Record) :
    Option ConfigDoc :=
  data.foldlM
    (fun cfg p =>
      let cfg1 :=
        if (dictGet? cfg p.1).isSome then cfg
        else dictSet cfg p.1 (.vDict [])
      p.2.foldlM
        (fun c q =>
          match dictGet? c p.1 with
          | some (.vDict m) =>
            some (dictSet c p.1 (.vDict (dictSet m q.1 (.vStr (pyStr q.2)))))
          | _ => none)
        cfg1)
    config

/-- `_save_with_configobj` (lines 357-435): records holding nested field
values go through raw writing; otherwise an existing file is read back
through configobj, updated and rewritten, and success is reported iff
the file exists afterwards. -/
def saveWithConfigobj (fs : FS) (path : String) (data : Record)
    (schema : GameSchema) : AdapterOut :=
  if recordHasNested schema data then saveWithRawWrite fs path data schema
  else
    let config0? : Option ConfigDoc :=
      if fs.fileExists path then configObjView (fs.read? path) else some []
    match config0? with
    | none => { fs := fs, ok := false }
    | some config0 =>
      match configObjUpdate config0 data with
      | none => { fs := fs, ok := false }
      | some config =>
        let fs' := fs.write path (.iniDoc config)
        if fs'.fileExists path then { fs := fs', ok := true }
        else { fs := fs', ok := false }

/-- The record as the document handed to `yaml.dump` / `json.dump`
(sections become sub-mappings). -/
def recordToDoc (data : Record) : ConfigDoc :=
  data.map fun p => (p.1, Val.vDict p.2)

/-- `_save_with_yaml` (lines 507-520): the record is dumped as-is. -/
def saveWithYaml (fs : FS) (path : String) (data : Record)
    (_schema : GameSchema) : AdapterOut :=
  { fs := fs.write path (.yamlDoc (recordToDoc data)), ok := true }

/-- `_save_with_pyhocon` (lines 522-531): HOCON is parse-only, saving
falls back to `json.dump` of the record. -/
def saveWithPyhocon (fs : FS) (path : String) (data : Record)
    (_schema : GameSchema) : AdapterOut :=
  { fs := fs.write path (.jsonDoc (recordToDoc data)), ok := true }

/-- `_save_with_properties` (lines 608-664): only the first schema
section, header comments, then per declared field (in schema order) an
optional description comment and `name=value`. -/
def saveWithProperties (fs : FS) (path : String) (data : Record)
    (schema : GameSchema) : AdapterOut :=
  match schema.sections with
  | [] => { fs := fs, ok := false }
  | sec :: _ =>
    let key := sKey sec
    let header := ["# Minecraft Bedrock Server Configuration",
                   "# Generated by GameServerManager", ""]
    let body : List String :=
      match dictGet? data key with
      | some sd =>
        sec.fields.foldl
          (fun acc f =>
            match dictGet? sd f.name with
            | some v =>
              let descLines : List String :=
                match f.description? with
                | some d =>
                  if d.isEmpty then []
                  else ["# " ++ f.display?.getD f.name ++ ": " ++ d]
                | none => []
              let ftype := f.type?.getD "string"
              let fm :=
                if ftype = "boolean" then
                  if pyTruthy v then "true" else "false"
                else pyStr v
              acc ++ descLines ++ [f.name ++ "=" ++ fm, ""]
            | none => acc)
          []
      | none => []
    { fs := fs.write path (.text (joinLines (header ++ body))), ok := true }

/-- Strip one pair of surrounding double quotes (lines 758-760). -/
def stripDQuotes (v : String) : String :=
  if strHeadIs v '"' && strLastIs v '"' then
    String.mk ((v.toList.drop 1).dropLast)
  else v

/-- Nonempty all-digits test, Python `str.isdigit` for ASCII text. -/
def pyIsDigits (s : String) : Bool :=
  !s.isEmpty && s.toList.all Char.isDigit

/-- The text-shape re-typing of nested sub-values on JSON/TOML encode
(lines 762-773 and 886-897, identical): `true`/`false` case-insensitively
become booleans, all-digit strings integers, digit-and-dot strings
floats (falling back to the raw string when `float()` raises, e.g.
`1.2.3`), everything else stays a string.  The declared nested sub-type
is never consulted. -/
def retypeNestedValue (value : String) : Val :=
  if strLower value = "true" ∨ strLower value = "false" then
    .vBool (strLower value = "true")
  else if pyIsDigits value then .vInt (digitsToNat value.toList : Int)
  else if value.toList.contains '.' &&
      pyIsDigits (String.mk (value.toList.filter (· ≠ '.'))) then
    match pyFloatOfString? value with
    | some fl => .vFloat fl
    | none => .vStr value
  else .vStr value

/-- Convert the elements of a nested value to a native object for
JSON/TOML encode (lines 753-773, 877-897): split each string element at
its first `=`, strip quotes and re-type; elements without `=` are
dropped; `none` models the `TypeError` on a non-string element. -/
def nestedObjOfElements (elems : List Val) : Option (Dict Val) :=
  elems.foldlM
    (fun obj e =>
      match e with
      | .vStr s =>
        if s.toList.any (· = '=') then
          let (k, v0) := splitFirstEq s
          some (dictSet obj k (retypeNestedValue (stripDQuotes v0)))
        else some obj
      | _ => none)
    []

/-- Per-section field processing shared by the JSON and TOML save
adapters (lines 742-778 and 866-902): list values of declared nested
fields become native objects, everything else passes through. -/
def processSectionFieldsStructured (ss? : Option SchemaSection)
    (sd : SectionData) : Option SectionData :=
  sd.foldlM
    (fun acc q =>
      let f? : Option FieldSpec :=
        match ss? with
        | some ss => ss.fields.find? fun f => f.name = q.1
        | none => none
      match f? with
      | some f =>
        if f.type? == some "nested" then
          match q.2 with
          | .vList elems =>
            (nestedObjOfElements elems).map fun obj =>
              dictSet acc q.1 (.vDict obj)
          | _ => some (dictSet acc q.1 q.2)
        else some (dictSet acc q.1 q.2)
      | none => some (dictSet acc q.1 q.2))
    []

/-- `_save_with_json` (lines 724-788). -/
def saveWithJson (fs : FS) (path : String) (data : Record)
    (schema : GameSchema) : AdapterOut :=
  let processed? : Option ConfigDoc :=
    data.foldlM
      (fun acc p =>
        (processSectionFieldsStructured (findSchemaSection schema p.1) p.2).map
          fun sd => dictSet acc p.1 (.vDict sd))
      []
  match processed? with
  | none => { fs := fs, ok := false }
  | some d => { fs := fs.write path (.jsonDoc d), ok := true }

/-- `_save_with_toml` (lines 848-917): like JSON, but a section whose
schema declares no `key` is flattened into the document root
(`update`, lines 904-907). -/
def saveWithToml (fs : FS) (path : String) (data : Record)
    (schema : GameSchema) : AdapterOut :=
  let final? : Option ConfigDoc :=
    data.foldlM
      (fun acc p =>
        let ss? := findSchemaSection schema p.1
        let hasKey :=
          match ss? with
          | some ss => ss.key?.isSome
          | none => false
        (processSectionFieldsStructured ss? p.2).map fun sd =>
          if hasKey then dictSet acc p.1 (.vDict sd)
          else sd.foldl (fun a q => dictSet a q.1 q.2) acc)
      []
  match final? with
  | none => { fs := fs, ok := false }
  | some d => { fs := fs.write path (.tomlDoc d), ok := true }

/-! ### Config store orchestration -/

/-- Result of `save_game_config`: new filesystem, returned boolean, and
the error messages logged (tags, not the literal log text). -/
structure SaveOut where
  fs : FS
  ok : Bool
  errors : List String := []

/-- Result of `read_game_config` (the filesystem can change because a
missing file is created with defaults). -/
structure ReadOut where
  fs : FS
  record : Record
  errors : List String := []

/-- The keys of `self.supported_parsers`. -/
def supportedParserNames : List String :=
  ["configobj", "pyhocon", "ruamel.yaml", "properties", "json", "toml"]

/-- The `supported_parsers` dispatch table used by `read_game_config`. -/
def dispatchParse (pt : String) :
    Option (Option FileData → GameSchema → Record) :=
  if pt = "configobj" then some parseWithConfigobj
  else if pt = "pyhocon" then some parseWithPyhocon
  else if pt = "ruamel.yaml" then some parseWithYaml
  else if pt = "properties" then some parseWithProperties
  else if pt = "json" then some parseWithJson
  else if pt = "toml" then some parseWithToml
  else none

/-- The `if/elif` adapter dispatch of `save_game_config`
(lines 132-147); `none` is the final `else` for an unsupported parser
type. -/
def dispatchSave (fs : FS) (path : String) (data : Record)
    (schema : GameSchema) (parserType : String) : Option AdapterOut :=
  if parserType = "configobj" then some (saveWithConfigobj fs path data schema)
  else if parserType = "ruamel.yaml" then some (saveWithYaml fs path data schema)
  else if parserType = "pyhocon" then some (saveWithPyhocon fs path data schema)
  else if parserType = "properties" then some (saveWithProperties fs path data schema)
  else if parserType = "json" then some (saveWithJson fs path data schema)
  else if parserType = "toml" then some (saveWithToml fs path data schema)
  else none

/-- The post-write verification of `save_game_config` (lines 149-165):
after a reported success the file is re-checked for existence only; its
size is read and logged (line 153) but never tested, so a zero-size file
still counts as success. -/
def savePostCheck (path : String) (a : AdapterOut) : SaveOut :=
  if a.ok then
    if a.fs.fileExists path then { fs := a.fs, ok := true }
    else
      { fs := a.fs, ok := false,
        errors := ["file missing after save: " ++ path] }
  else
    { fs := a.fs, ok := false,
      errors := ["adapter save failed: " ++ path] }

/-- `save_game_config` (lines 111-171): resolve the path, ensure and
check the parent directory, dispatch on the parser type, then run the
post-write verification. -/
def saveGameConfig (fs : FS) (serverPath : String) (schema : GameSchema)
    (data : Record) (parserType : String) : SaveOut :=
  let path := osPathJoin serverPath schema.configFile
  let dir := osPathDirname path
  if fs.writableDirs.contains dir then
    match dispatchSave fs path data schema parserType with
    | none =>
      { fs := fs, ok := false,
        errors := ["unsupported parser type: " ++ parserType] }
    | some a => savePostCheck path a
  else
    { fs := fs, ok := false, errors := ["no write permission: " ++ dir] }

/-- `read_game_config` (lines 78-109): resolve the path; if the file is
missing, materialize the schema defaults through `save_game_config` with
the same parser (returning an empty record when that fails); then
dispatch to the parser, an unknown parser type yielding an empty record
with a logged error. -/
def readGameConfig (fs : FS) (serverPath : String) (schema : GameSchema)
    (parserType : String) : ReadOut :=
  let path := osPathJoin serverPath schema.configFile
  let dispatch : FS → ReadOut := fun fs' =>
    match dispatchParse parserType with
    | some p => { fs := fs', record := p (fs'.read? path) schema }
    | none =>
      { fs := fs', record := [],
        errors := ["unsupported parser type: " ++ parserType] }
  if ¬ fs.fileExists path then
    let defaults := getDefaultValues schema
    let so := saveGameConfig fs serverPath schema defaults parserType
    if so.ok then dispatch so.fs
    else
      { fs := so.fs, record := [],
        errors := so.errors ++ ["failed to create default config: " ++ path] }
  else dispatch fs

/-! ### Concrete fixtures used in the claim theorems and witnesses -/

/-- Schema with a keyed `world` section holding a single `number` field
`difficulty` with default `1` (the default-materialization scenario). -/
def worldNumberSchema : GameSchema :=
  { configFile := "server.properties",
    sections := [{ key? := some "world",
                   fields := [{ name := "difficulty",
                                type? := some "number",
                                default? := some (.vInt 1) }] }] }

/-- Schema used against the YAML adapter: keyed section `world` with
field `difficulty`. -/
def yamlWorldSchema : GameSchema :=
  { configFile := "config.yml",
    sections := [{ key? := some "world",
                   fields := [{ name := "difficulty",
                                type? := some "number",
                                default? := some (.vInt 1) }] }] }

/-- A YAML document carrying `world.difficulty = 2`. -/
def yamlWorldDoc : ConfigDoc :=
  [("world", .vDict [("difficulty", .vInt 2)])]

/-- Properties section of the coercion-failure scenario: a `number`
field and a `string` field. -/
def propCoerceSection : SchemaSection :=
  { key? := some "server",
    fields := [{ name := "difficulty", type? := some "number" },
               { name := "name", type? := some "string" }] }

/-- Properties schema of the coercion-failure scenario. -/
def propCoerceSchema : GameSchema :=
  { configFile := "server.properties", sections := [propCoerceSection] }

/-- Configobj section for the same scenario: there the coercion is driven
by the Python type of the declared default. -/
def cobjCoerceSection : SchemaSection :=
  { key? := some "world",
    fields := [{ name := "difficulty", default? := some (.vInt 1) },
               { name := "name" }] }

/-- Configobj schema of the coercion-failure scenario. -/
def cobjCoerceSchema : GameSchema :=
  { configFile := "server.cfg", sections := [cobjCoerceSection] }

/-- A configobj document whose `difficulty` value `v` is supplied by the
theorem; helper building it. -/
def cobjDocWith (v : String) : ConfigDoc :=
  [("world", .vDict [("difficulty", .vStr v), ("name", .vStr "srv")])]

/-- Nested sub-field declarations of the round-trip scenario:
`name` is a string, `difficulty` and `pvp` are not. -/
def creativeNestedFields : List NestedField :=
  [{ name := "name", type? := some "string" },
   { name := "difficulty", type? := some "number" },
   { name := "pvp", type? := some "boolean" }]

/-- The nested value of the round-trip scenario. -/
def creativeNestedValue : List Val :=
  [.vStr "name=\"Creative World\"", .vStr "difficulty=2", .vStr "pvp=true"]

/-- Schema used for the TOML zero-size save scenario. -/
def tomlZeroSchema : GameSchema :=
  { configFile := "empty.toml",
    sections := [{ key? := some "world",
                   fields := [{ name := "difficulty",
                                type? := some "number",
                                default? := some (.vInt 1) }] }] }

/-- A second TOML schema (distinct target) for the amended save-check
statement. -/
def tomlZeroSchemaB : GameSchema :=
  { configFile := "zero.toml",
    sections := [{ key? := some "net",
                   fields := [{ name := "port", type? := some "number" }] }] }

/-- Schema with two keyed sections for the absent-field theorems. -/
def absentFieldSchema : GameSchema :=
  { configFile := "game.cfg",
    sections := [{ key? := some "world",
                   fields := [{ name := "difficulty",
                                default? := some (.vInt 1) },
                              { name := "name" }] },
                 { key? := some "net",
                   fields := [{ name := "port",
                                default? := some (.vInt 8080) }] }] }

/-- A document for `absentFieldSchema` in which `world` is present but
lacks `difficulty`. -/
def absentFieldDoc : ConfigDoc :=
  [("world", .vDict [("name", .vStr "alpha")]), ("net", .vDict [])]

/-- Whether `name` is *not* retrievable as a member of section `key` of
document `d` (the hypothesis under which a declared field stays absent
from the decoded record). -/
def fieldAbsentIn (d : ConfigDoc) (key name : String) : Bool :=
  match dictGet? d key with
  | none => true
  | some src => !(pyIn? name src == some true)

/-- Schema for the nested re-typing scenario: the nested sub-field
`port` is declared `string` (yet its all-digit text is written as a
number). -/
def nestedRetypeSchema : GameSchema :=
  { configFile := "srv.json",
    sections := [{ key? := some "srv",
                   fields := [{ name := "opts",
                                type? := some "nested",
                                nestedFields :=
                                  [{ name := "port", type? := some "string" },
                                   { name := "flag", type? := some "boolean" },
                                   { name := "scale", type? := some "number" },
                                   { name := "title", type? := some "string" },
                                   { name := "desc", type? := some "string" }] }] }] }

/-- The nested record written in the re-typing scenario. -/
def nestedRetypeData : Record :=
  [("srv", [("opts", .vList [.vStr "port=8080", .vStr "flag=false",
                             .vStr "scale=1.5", .vStr "title=\"My Server\"",
                             .vStr "desc=hello"])])]

/-- The native object both `_save_with_json` and `_save_with_toml`
produce for `nestedRetypeData`. -/
def nestedRetypeObj : Dict Val :=
  [("port", .vInt 8080), ("flag", .vBool false), ("scale", .vFloat "1.5"),
   ("title", .vStr "My Server"), ("desc", .vStr "hello")]

/-- Condition on a token under which the nested codec passes a
format-native list element through unchanged: nonempty, strip-invariant,
free of commas and quotes, and not starting with `(`. -/
def PlainNestedToken (t : String) : Prop :=
  t.toList ≠ [] ∧
  (∀ c ∈ t.toList, c ≠ ',' ∧ c ≠ '"' ∧ c ≠ '\'') ∧
  trimChars t.toList = t.toList ∧
  strHeadIs t '(' = false

instance (t : String) : Decidable (PlainNestedToken t) := by
  unfold PlainNestedToken; infer_instance

/-! ### Dictionary lemmas -/

theorem dictGet_dictSet_self {α : Type} (d : Dict α) (k : String) (v : α) :
    dictGet? (dictSet d k v) k = some v := by
  induction d with
  | nil => simp [dictSet, dictGet?]
  | cons p rest ih =>
    by_cases h : p.1 = k
    · simp [dictSet, dictGet?, h]
    · simp [dictSet, dictGet?, h, ih]

theorem dictGet_dictSet_ne {α : Type} (d : Dict α) (k k' : String) (v : α)
    (h : k' ≠ k) : dictGet? (dictSet d k v) k' = dictGet? d k' := by
  induction d with
  | nil => simp [dictSet, dictGet?, Ne.symm h]
  | cons p rest ih =>
    by_cases hp : p.1 = k
    · subst hp
      simp [dictSet, dictGet?, Ne.symm h]
    · by_cases hp' : p.1 = k'
      · simp [dictSet, dictGet?, hp, hp', h]
      · simp [dictSet, dictGet?, hp, hp', ih]

/-! ### Fold lemmas for dictionary-building loops -/

theorem foldl_dictSet_not_mem {α β : Type} (keyOf : α → String) (valOf : α → β) :
    ∀ (l : List α) (acc : Dict β) (k : String), k ∉ l.map keyOf →
      dictGet? (l.foldl (fun d x => dictSet d (keyOf x) (valOf x)) acc) k
        = dictGet? acc k := by
  intro l
  induction l with
  | nil => intro acc k _; rfl
  | cons a rest ih =>
    intro acc k hk
    simp only [List.map_cons, List.mem_cons, not_or] at hk
    rw [List.foldl_cons, ih _ k hk.2, dictGet_dictSet_ne _ _ _ _ hk.1]

theorem foldl_dictSet_mem {α β : Type} (keyOf : α → String) (valOf : α → β) :
    ∀ (l : List α) (acc : Dict β) (a : α), a ∈ l → (l.map keyOf).Nodup →
      dictGet? (l.foldl (fun d x => dictSet d (keyOf x) (valOf x)) acc) (keyOf a)
        = some (valOf a) := by
  intro l
  induction l with
  | nil => intro acc a ha _; cases ha
  | cons b rest ih =>
    intro acc a ha hnd
    simp only [List.map_cons, List.nodup_cons] at hnd
    rcases List.mem_cons.mp ha with rfl | h
    · rw [List.foldl_cons, foldl_dictSet_not_mem keyOf valOf rest _ _ hnd.1,
        dictGet_dictSet_self]
    · rw [List.foldl_cons]
      exact ih _ a h hnd.2

theorem getDefaultValues_lookup (schema : GameSchema) (s : SchemaSection)
    (f : FieldSpec) (hs : s ∈ schema.sections) (hf : f ∈ s.fields)
    (hnd1 : (schema.sections.map sKey).Nodup)
    (hnd2 : (s.fields.map FieldSpec.name).Nodup) :
    recordLookup (getDefaultValues schema) (sKey s) f.name
      = some (f.default?.getD (.vStr "")) := by
  unfold recordLookup getDefaultValues
  rw [foldl_dictSet_mem sKey
    (fun s => s.fields.foldl
      (fun m f => dictSet m f.name (f.default?.getD (.vStr ""))) [])
    schema.sections [] s hs hnd1]
  simp only [Option.some_bind]
  exact foldl_dictSet_mem FieldSpec.name (fun f => f.default?.getD (.vStr ""))
    s.fields [] f hf hnd2

/-! ### Lemmas about the section/field decoding loops -/

theorem fieldsLoop_absent (coerce : FieldSpec → Val → Option Val) (src : Val)
    (name : String) (hname : pyIn? name src ≠ some true) :
    ∀ (fields : List FieldSpec) (acc : SectionData) (res : SectionData),
      fieldsLoop coerce src fields acc = some res →
      dictGet? res name = dictGet? acc name := by
  intro fields
  induction fields with
  | nil =>
    intro acc res h
    simp only [fieldsLoop, Option.some.injEq] at h
    rw [h]
  | cons f rest ih =>
    intro acc res h
    cases hin : pyIn? f.name src with
    | none =>
      simp only [fieldsLoop, hin] at h
      exact Option.noConfusion h
    | some b =>
      cases b with
      | false =>
        simp only [fieldsLoop, hin] at h
        exact ih acc res h
      | true =>
        cases hget : pyGetItem? src f.name with
        | none =>
          simp only [fieldsLoop, hin, hget] at h
          exact Option.noConfusion h
        | some v =>
          cases hc : coerce f v with
          | none =>
            simp only [fieldsLoop, hin, hget, hc] at h
            exact Option.noConfusion h
          | some v2 =>
            simp only [fieldsLoop, hin, hget, hc] at h
            rw [ih _ res h]
            apply dictGet_dictSet_ne
            intro heq
            exact hname (by rw [heq]; exact hin)

theorem sectionsLoopKeyed_not_mem (coerce : FieldSpec → Val → Option Val)
    (config : ConfigDoc) :
    ∀ (sections : List SchemaSection) (acc : Record) (key : String)
      (res : Record),
      sectionsLoopKeyed coerce config sections acc = some res →
      key ∉ sections.map sKey →
      dictGet? res key = dictGet? acc key := by
  intro sections
  induction sections with
  | nil =>
    intro acc key res h _
    simp only [sectionsLoopKeyed, Option.some.injEq] at h
    rw [h]
  | cons s rest ih =>
    intro acc key res h hk
    simp only [List.map_cons, List.mem_cons, not_or] at hk
    cases hc : dictGet? config (sKey s) with
    | none =>
      simp only [sectionsLoopKeyed, hc] at h
      rw [ih _ key res h hk.2, dictGet_dictSet_ne _ _ _ _ hk.1]
    | some src =>
      cases hfl : fieldsLoop coerce src s.fields [] with
      | none =>
        simp only [sectionsLoopKeyed, hc, hfl] at h
        exact Option.noConfusion h
      | some inner =>
        simp only [sectionsLoopKeyed, hc, hfl] at h
        rw [ih _ key res h hk.2, dictGet_dictSet_ne _ _ _ _ hk.1,
          dictGet_dictSet_ne _ _ _ _ hk.1]

theorem sectionsLoopKeyed_absent_none (coerce : FieldSpec → Val → Option Val)
    (config : ConfigDoc) (fname : String) :
    ∀ (sections : List SchemaSection) (acc : Record) (s : SchemaSection)
      (res : Record),
      sectionsLoopKeyed coerce config sections acc = some res →
      s ∈ sections → (sections.map sKey).Nodup →
      fieldAbsentIn config (sKey s) fname = true →
      (dictGet? res (sKey s)).bind (fun sd => dictGet? sd fname) = none := by
  intro sections
  induction sections with
  | nil =>
    intro _ _ _ _ hs
    exact absurd hs (List.not_mem_nil _)
  | cons s0 rest ih =>
    intro acc s res h hs hnd habs
    simp only [List.map_cons, List.nodup_cons] at hnd
    rcases List.mem_cons.mp hs with rfl | hmem
    · cases hc : dictGet? config (sKey s) with
      | none =>
        simp only [sectionsLoopKeyed, hc] at h
        have hres : dictGet? res (sKey s) = some [] := by
          rw [sectionsLoopKeyed_not_mem coerce config rest _ _ res h hnd.1,
            dictGet_dictSet_self]
        rw [hres]
        rfl
      | some src =>
        have hnotin : pyIn? fname src ≠ some true := by
          unfold fieldAbsentIn at habs
          rw [hc] at habs
          simpa using habs
        cases hfl : fieldsLoop coerce src s.fields [] with
        | none =>
          simp only [sectionsLoopKeyed, hc, hfl] at h
          exact Option.noConfusion h
        | some inner =>
          simp only [sectionsLoopKeyed, hc, hfl] at h
          have hres : dictGet? res (sKey s) = some inner := by
            rw [sectionsLoopKeyed_not_mem coerce config rest _ _ res h hnd.1,
              dictGet_dictSet_self]
          have hinner : dictGet? inner fname = none := by
            rw [fieldsLoop_absent coerce src fname hnotin s.fields [] inner hfl]
            rfl
          rw [hres]
          simpa using hinner
    · cases hc : dictGet? config (sKey s0) with
      | none =>
        simp only [sectionsLoopKeyed, hc] at h
        exact ih _ s res h hmem hnd.2 habs
      | some src =>
        cases hfl : fieldsLoop coerce src s0.fields [] with
        | none =>
          simp only [sectionsLoopKeyed, hc, hfl] at h
          exact Option.noConfusion h
        | some inner =>
          simp only [sectionsLoopKeyed, hc, hfl] at h
          exact ih _ s res h hmem hnd.2 habs

/-! ### Nested-codec lemmas -/

theorem strMk_toList (s : String) : String.mk s.toList = s := rfl

theorem splitNestedAux_consume :
    ∀ (cs : List Char), (∀ c ∈ cs, c ≠ ',' ∧ c ≠ '"' ∧ c ≠ '\'') →
    ∀ (rest cur : List Char) (ps : List (List Char)),
      splitNestedAux (cs ++ rest) false none cur ps
        = splitNestedAux rest false none (cur ++ cs) ps := by
  intro cs
  induction cs with
  | nil => intro _ rest cur ps; simp
  | cons c t ih =>
    intro h rest cur ps
    have hc := h c (List.mem_cons_self _ _)
    have ht : ∀ x ∈ t, x ≠ ',' ∧ x ≠ '"' ∧ x ≠ '\'' :=
      fun x hx => h x (List.mem_cons_of_mem _ hx)
    simp only [List.cons_append, splitNestedAux]
    rw [if_neg (by simp [hc.2.1, hc.2.2]), if_neg (by simp),
      if_neg (by simp [hc.1])]
    have hstep := ih ht rest (cur ++ [c]) ps
    simpa using hstep

theorem splitNestedAux_intercalate :
    ∀ (ts : List (List Char)),
      (∀ t ∈ ts, t ≠ [] ∧ (∀ c ∈ t, c ≠ ',' ∧ c ≠ '"' ∧ c ≠ '\'') ∧
        trimChars t = t) →
    ∀ (ps : List (List Char)),
      splitNestedAux (intercalateChars ',' ts) false none [] ps = ps ++ ts := by
  intro ts
  induction ts with
  | nil => intro _ ps; simp [intercalateChars, splitNestedAux, trimChars]
  | cons t rest ih =>
    intro h ps
    have ht := h t (List.mem_cons_self _ _)
    have hrest : ∀ x ∈ rest, x ≠ [] ∧ (∀ c ∈ x, c ≠ ',' ∧ c ≠ '"' ∧ c ≠ '\'') ∧
        trimChars x = x :=
      fun x hx => h x (List.mem_cons_of_mem _ hx)
    cases rest with
    | nil =>
      simp only [intercalateChars]
      rw [show splitNestedAux t false none [] ps
          = splitNestedAux (t ++ []) false none [] ps by simp]
      rw [splitNestedAux_consume t ht.2.1 [] [] ps]
      simp only [splitNestedAux, List.nil_append]
      rw [ht.2.2, if_neg (by simp [List.isEmpty_iff, ht.1])]
    | cons t2 rest2 =>
      simp only [intercalateChars]
      rw [splitNestedAux_consume t ht.2.1 _ [] ps]
      simp only [List.nil_append, splitNestedAux]
      rw [if_neg (by simp), if_neg (by simp), if_pos (by simp)]
      rw [ht.2.2, if_neg (by simp [List.isEmpty_iff, ht.1])]
      rw [ih hrest (ps ++ [t])]
      simp

theorem allStrChars?_map (ts : List String) :
    allStrChars? (ts.map Val.vStr) = some (ts.map String.toList) := by
  induction ts with
  | nil => rfl
  | cons t rest ih => simp [allStrChars?, ih]

theorem intercalate_ne_nil (t : List Char) (rest : List (List Char))
    (ht : t ≠ []) : intercalateChars ',' (t :: rest) ≠ [] := by
  cases rest with
  | nil => simpa [intercalateChars] using ht
  | cons a b =>
    simp only [intercalateChars]
    intro hx
    rcases List.append_eq_nil.mp hx with ⟨h1, _⟩
    exact ht h1

/-! ### Properties-adapter line lemmas -/

theorem dropWhile_length_le (p : Char → Bool) :
    ∀ l : List Char, (List.dropWhile p l).length ≤ l.length := by
  intro l
  induction l with
  | nil => simp
  | cons c t ih =>
    rw [List.dropWhile_cons]
    by_cases hc : p c
    · simp only [hc, if_true]
      exact le_trans ih (Nat.le_succ _)
    · simp [hc]

theorem dropWhile_self_head_false (p : Char → Bool) (l : List Char)
    (h : List.dropWhile p l = l) (c : Char) (t : List Char) (he : l = c :: t) :
    p c = false := by
  subst he
  rw [List.dropWhile_cons] at h
  by_cases hc : p c
  · rw [if_pos hc] at h
    have hlen := congrArg List.length h
    have hle := dropWhile_length_le p t
    simp at hlen
    omega
  · simpa using hc

theorem dropWhile_append_self (p : Char → Bool) (a b : List Char)
    (ha : List.dropWhile p a = a)
    (hb : a = [] → List.dropWhile p b = b) :
    List.dropWhile p (a ++ b) = a ++ b := by
  cases he : a with
  | nil => simpa using hb he
  | cons c t =>
    have hc := dropWhile_self_head_false p a ha c t he
    subst he
    rw [List.cons_append, List.dropWhile_cons, hc]
    simp

theorem trimChars_append_left (d w : List Char) (hd0 : d ≠ [])
    (hd1 : List.dropWhile wsChar d = d)
    (hd2 : List.dropWhile wsChar d.reverse = d.reverse)
    (hw2 : List.dropWhile wsChar w.reverse = w.reverse) :
    trimChars (d ++ w) = d ++ w := by
  unfold trimChars
  rw [dropWhile_append_self wsChar d w hd1 (fun h => absurd h hd0)]
  rw [List.reverse_append]
  rw [dropWhile_append_self wsChar w.reverse d.reverse hw2
    (fun _ => hd2)]
  rw [List.reverse_append, List.reverse_reverse, List.reverse_reverse]

theorem trimChars_of_stripped (w : List Char)
    (hw1 : List.dropWhile wsChar w = w)
    (hw2 : List.dropWhile wsChar w.reverse = w.reverse) :
    trimChars w = w := by
  unfold trimChars
  rw [hw1, hw2, List.reverse_reverse]

theorem splitOnCharAux_consume (sep : Char) :
    ∀ (cs : List Char), (∀ c ∈ cs, c ≠ sep) →
    ∀ (rest cur : List Char),
      splitOnCharAux sep (cs ++ rest) cur
        = splitOnCharAux sep rest (cs.reverse ++ cur) := by
  intro cs
  induction cs with
  | nil => intro _ rest cur; simp
  | cons c t ih =>
    intro h rest cur
    have hc := h c (List.mem_cons_self _ _)
    have ht : ∀ x ∈ t, x ≠ sep := fun x hx => h x (List.mem_cons_of_mem _ hx)
    simp only [List.cons_append, splitOnCharAux]
    rw [if_neg hc]
    have hstep := ih ht rest (c :: cur)
    simpa using hstep

theorem splitOnChar_pair (sep : Char) (a b : List Char)
    (ha : ∀ c ∈ a, c ≠ sep) (hb : ∀ c ∈ b, c ≠ sep) :
    splitOnChar sep (a ++ sep :: b) = [a, b] := by
  unfold splitOnChar
  rw [splitOnCharAux_consume sep a ha (sep :: b) []]
  simp only [splitOnCharAux, if_pos rfl]
  rw [show b = b ++ [] from (List.append_nil b).symm,
    splitOnCharAux_consume sep b hb [] []]
  simp [splitOnCharAux]

theorem splitAtFirstChar_append (sep : Char) :
    ∀ (pre : List Char), (∀ c ∈ pre, c ≠ sep) →
    ∀ (post : List Char),
      splitAtFirstChar sep (pre ++ sep :: post) = (pre, post) := by
  intro pre
  induction pre with
  | nil => intro _ post; simp [splitAtFirstChar]
  | cons c t ih =>
    intro h post
    have hc := h c (List.mem_cons_self _ _)
    have ht : ∀ x ∈ t, x ≠ sep := fun x hx => h x (List.mem_cons_of_mem _ hx)
    simp only [List.cons_append, splitAtFirstChar]
    simp [if_neg hc, ih ht post]

theorem propertiesLine_nameX (st : SectionData × List String) :
    propertiesLine propCoerceSection st "name=x".toList
      = (dictSet st.1 "name" (.vStr "x"), st.2) := rfl

theorem propertiesLine_difficulty (v : String)
    (hInt : pyIntOfString? v = none) (hFloat : pyFloatOfString? v = none)
    (hw1 : List.dropWhile wsChar v.toList = v.toList)
    (hw2 : List.dropWhile wsChar v.toList.reverse = v.toList.reverse) :
    propertiesLine propCoerceSection ([], []) ("difficulty=".toList ++ v.toList)
      = ([("difficulty", .vStr v)], ["type conversion failed: difficulty"]) := by
  have hline : trimChars ("difficulty=".toList ++ v.toList)
      = "difficulty=".toList ++ v.toList :=
    trimChars_append_left _ _ (by decide) (by decide) (by decide) hw2
  have htrimv : trimChars v.toList = v.toList :=
    trimChars_of_stripped v.toList hw1 hw2
  have hsplit := splitAtFirstChar_append '=' "difficulty".toList (by decide)
    v.toList
  have hc1 : (("difficulty".toList ++ '=' :: v.toList).isEmpty
      || decide (("difficulty".toList ++ '=' :: v.toList).head? = some '#')
      || decide (("difficulty".toList ++ '=' :: v.toList).head? = some '!'))
      = false := by
    rw [show "difficulty".toList ++ '=' :: v.toList
        = 'd' :: ("ifficulty".toList ++ '=' :: v.toList) from rfl]
    simp
  have hany : (("difficulty".toList ++ '=' :: v.toList).any
      fun x => decide (x = '=')) = true := by
    rw [List.any_append]
    have h1 : (('=' :: v.toList).any fun x => decide (x = '=')) = true := by
      simp
    rw [h1, Bool.or_true]
  have hkey : String.mk (trimChars "difficulty".toList) = "difficulty" := rfl
  unfold propertiesLine
  rw [hline]
  rw [show "difficulty=".toList ++ v.toList
      = "difficulty".toList ++ '=' :: v.toList from rfl]
  simp only [hc1, Bool.false_eq_true, if_false, hany, if_true, hsplit, htrimv,
    hkey]
  rw [show String.mk v.toList = v from rfl]
  simp [propCoerceSection, List.find?, hInt, hFloat, dictSet]

/-! ### Orchestration lemmas -/

theorem savePostCheck_fs (p : String) (a : AdapterOut) :
    (savePostCheck p a).fs = a.fs := by
  unfold savePostCheck
  by_cases hok : a.ok <;> by_cases hex : a.fs.fileExists p <;> simp [hok, hex]

theorem savePostCheck_ok_exists (p : String) (a : AdapterOut)
    (h : (savePostCheck p a).ok = true) : a.fs.fileExists p = true := by
  unfold savePostCheck at h
  by_cases hok : a.ok <;> by_cases hex : a.fs.fileExists p <;>
    simp_all [hok, hex]

theorem saveGameConfig_ok_fileExists (fs : FS) (sp : String)
    (schema : GameSchema) (data : Record) (pt : String) :
    (saveGameConfig fs sp schema data pt).ok = true →
    (saveGameConfig fs sp schema data pt).fs.fileExists
      (osPathJoin sp schema.configFile) = true := by
  unfold saveGameConfig
  by_cases hw : fs.writableDirs.contains
      (osPathDirname (osPathJoin sp schema.configFile)) <;>
    simp only [hw, if_true, if_false, Bool.false_eq_true]
  · cases hres : dispatchSave fs (osPathJoin sp schema.configFile) data schema pt with
    | none => simp
    | some a =>
      intro h
      rw [savePostCheck_fs]
      exact savePostCheck_ok_exists _ _ h
  · simp

theorem saveGameConfig_unknown (fs : FS) (sp : String) (schema : GameSchema)
    (d : Record) (pt : String)
    (h1 : ¬pt = "configobj") (h2 : ¬pt = "pyhocon") (h3 : ¬pt = "ruamel.yaml")
    (h4 : ¬pt = "properties") (h5 : ¬pt = "json") (h6 : ¬pt = "toml") :
    (saveGameConfig fs sp schema d pt).ok = false ∧
    (saveGameConfig fs sp schema d pt).errors ≠ [] := by
  unfold saveGameConfig
  have hd : dispatchSave fs (osPathJoin sp schema.configFile) d schema pt
      = none := by
    simp [dispatchSave, h1, h2, h3, h4, h5, h6]
  by_cases hw : osPathDirname (osPathJoin sp schema.configFile)
      ∈ fs.writableDirs <;>
    simp [hw, hd]

theorem readGameConfig_unknown (fs : FS) (sp : String) (schema : GameSchema)
    (pt : String)
    (h1 : ¬pt = "configobj") (h2 : ¬pt = "pyhocon") (h3 : ¬pt = "ruamel.yaml")
    (h4 : ¬pt = "properties") (h5 : ¬pt = "json") (h6 : ¬pt = "toml") :
    (readGameConfig fs sp schema pt).record = [] ∧
    (readGameConfig fs sp schema pt).errors ≠ [] := by
  unfold readGameConfig
  have hdp : dispatchParse pt = none := by
    simp [dispatchParse, h1, h2, h3, h4, h5, h6]
  have hsv := saveGameConfig_unknown fs sp schema (getDefaultValues schema) pt
    h1 h2 h3 h4 h5 h6
  by_cases hex : fs.fileExists (osPathJoin sp schema.configFile)
  · simp [hex, hdp]
  · simp only [hex, Bool.false_eq_true, not_false_eq_true, if_true, if_false]
    simp [hdp, hsv.1]

/-! ### Claim theorems (closed statements) -/

/-- C1: the claim states that the YAML adapter's decode maps every
schema-declared field present in the document to the value found there.
The code does not: for the document `world: (difficulty: 2)` and a schema
declaring `world.difficulty`, the decoded record's `world` section is
empty — the value is read into a local variable at line 315 but never
assigned into the result (the `else` on line 317 is a `for/else`), so no
field is ever stored. -/
theorem C1_yaml_decode_returns_empty_sections :
    parseWithYaml (some (.yamlDoc yamlWorldDoc)) yamlWorldSchema
      = [("world", [])] ∧
    [("world", ([] : SectionData))]
      ≠ [("world", [("difficulty", Val.vInt 2)])] :=
  ⟨rfl, by simp⟩

/-- C2, counterexample: the claim says a per-field type-coercion failure
never aborts the whole decode.  In the configobj adapter the conversion
`int(value)` (line 271) is guarded only by the function-level `except`,
so for a file whose `world.difficulty` is the unparseable `"abc"` the
entire decode returns the empty record — the intact `name` field is
dropped along with everything else. -/
theorem C2_configobj_coercion_aborts_decode :
    parseWithConfigobj (some (.iniDoc (cobjDocWith "abc"))) cobjCoerceSchema
      = [] ∧
    recordLookup
      (parseWithConfigobj (some (.iniDoc (cobjDocWith "abc"))) cobjCoerceSchema)
      "world" "name" = none :=
  ⟨rfl, rfl⟩

/-- C3, counterexample: the claim says `save_game_config` returns false
whenever the post-write file has size zero.  Saving an empty record with
the TOML adapter writes a zero-byte file (`toml.dump` of an empty
mapping emits nothing), yet `save_game_config` returns `True`: the size
is read and logged (line 153) but never tested. -/
theorem C3_zero_size_file_reported_success :
    (saveGameConfig { files := [], writableDirs := ["/srv"] } "/srv"
        tomlZeroSchema [] "toml").ok = true ∧
    ((saveGameConfig { files := [], writableDirs := ["/srv"] } "/srv"
        tomlZeroSchema [] "toml").fs.read? "/srv/empty.toml").map
      FileData.sizeIsZero = some true :=
  ⟨rfl, rfl⟩

/-- C2, amended: the per-field error policy differs by adapter.  For the
properties adapter a type-coercion failure on one field is caught
locally: the field is kept with its raw string value, a warning is
recorded, and the remaining lines are still decoded.  For the configobj
adapter the same failure propagates to the function-level handler and
the whole decode returns the empty record. -/
theorem C2_per_field_coercion_policy (v : String)
    (hInt : pyIntOfString? v = none) (hFloat : pyFloatOfString? v = none)
    (hNl : '\n' ∉ v.toList)
    (hw1 : List.dropWhile wsChar v.toList = v.toList)
    (hw2 : List.dropWhile wsChar v.toList.reverse = v.toList.reverse) :
    parseWithPropertiesFull
        (some (.text ("difficulty=" ++ v ++ "\nname=x"))) propCoerceSchema
      = ([("server", [("difficulty", .vStr v), ("name", .vStr "x")])],
         ["type conversion failed: difficulty"]) ∧
    parseWithConfigobj (some (.iniDoc (cobjDocWith v))) cobjCoerceSchema
      = [] := by
  constructor
  · have hchars : ("difficulty=" ++ v ++ "\nname=x").toList
        = ("difficulty=".toList ++ v.toList) ++ '\n' :: "name=x".toList := rfl
    have hlines : splitOnChar '\n' ("difficulty=" ++ v ++ "\nname=x").toList
        = ["difficulty=".toList ++ v.toList, "name=x".toList] := by
      rw [hchars]
      apply splitOnChar_pair
      · intro c hc
        rcases List.mem_append.mp hc with h | h
        · exact (by decide : ∀ x ∈ "difficulty=".toList, x ≠ '\n') c h
        · intro he; subst he; exact hNl h
      · decide
    have hfold : (splitOnChar '\n'
          ("difficulty=" ++ v ++ "\nname=x").toList).foldl
          (propertiesLine propCoerceSection) ([], [])
        = ([("difficulty", .vStr v), ("name", .vStr "x")],
           ["type conversion failed: difficulty"]) := by
      rw [hlines, List.foldl_cons,
        propertiesLine_difficulty v hInt hFloat hw1 hw2, List.foldl_cons,
        propertiesLine_nameX]
      rfl
    have hshape : parseWithPropertiesFull
        (some (.text ("difficulty=" ++ v ++ "\nname=x"))) propCoerceSchema
        = ([("server", ((splitOnChar '\n'
            ("difficulty=" ++ v ++ "\nname=x").toList).foldl
            (propertiesLine propCoerceSection) ([], [])).1)],
           ((splitOnChar '\n'
            ("difficulty=" ++ v ++ "\nname=x").toList).foldl
            (propertiesLine propCoerceSection) ([], [])).2) := rfl
    rw [hshape, hfold]
  · have hcoerce : coerceConfigobjField
        { name := "difficulty", default? := some (.vInt 1) } (.vStr v)
        = none := by
      simp [coerceConfigobjField, pyInt?, hInt]
    have hfl : fieldsLoop coerceConfigobjField
        (Val.vDict [("difficulty", Val.vStr v), ("name", Val.vStr "srv")])
        [{ name := "difficulty", default? := some (.vInt 1) },
         { name := "name" }] [] = none := by
      simp [fieldsLoop, pyIn?, pyGetItem?, dictGet?, hcoerce]
    have hloop : sectionsLoopKeyed coerceConfigobjField (cobjDocWith v)
        cobjCoerceSchema.sections [] = none := by
      simp [sectionsLoopKeyed, cobjCoerceSchema, cobjCoerceSection, sKey,
        cobjDocWith, dictGet?, hfl]
    simp [parseWithConfigobj, configObjView, hloop]

/-- C2 witness: the unparseable number text `"abc"`. -/
theorem C2_per_field_coercion_policy_witness :
    (pyIntOfString? "abc" = none ∧ pyFloatOfString? "abc" = none) ∧
    (parseWithPropertiesFull
        (some (.text ("difficulty=" ++ "abc" ++ "\nname=x"))) propCoerceSchema
      = ([("server", [("difficulty", .vStr "abc"), ("name", .vStr "x")])],
         ["type conversion failed: difficulty"]) ∧
     parseWithConfigobj (some (.iniDoc (cobjDocWith "abc"))) cobjCoerceSchema
      = []) :=
  ⟨⟨by decide, by decide⟩,
   C2_per_field_coercion_policy "abc" (by decide) (by decide) (by decide)
     (by decide) (by decide)⟩

/-- C3, amended: after the adapter reports success `save_game_config`
re-checks only that the target file exists, returning false when it is
missing; a zero-size post-write file is read and logged but still
reported as success (second conjunct: the TOML save of an empty record
produces an empty file yet returns true). -/
theorem C3_save_recheck_existence_only :
    (∀ (fs : FS) (serverPath : String) (schema : GameSchema) (data : Record)
        (parserType : String),
      (saveGameConfig fs serverPath schema data parserType).ok = true →
      (saveGameConfig fs serverPath schema data parserType).fs.fileExists
        (osPathJoin serverPath schema.configFile) = true) ∧
    ((saveGameConfig { files := [], writableDirs := ["/d"] } "/d"
        tomlZeroSchemaB [] "toml").ok = true ∧
     ((saveGameConfig { files := [], writableDirs := ["/d"] } "/d"
        tomlZeroSchemaB [] "toml").fs.read? "/d/zero.toml").map
       FileData.sizeIsZero = some true) :=
  ⟨saveGameConfig_ok_fileExists, rfl, rfl⟩

/-- C3 witness: a concrete successful properties save, at which the
existence re-check conclusion instantiates. -/
theorem C3_save_recheck_existence_only_witness :
    (saveGameConfig { files := [], writableDirs := ["/w"] } "/w"
        worldNumberSchema [("world", [("difficulty", Val.vInt 3)])]
        "properties").ok = true ∧
    (saveGameConfig { files := [], writableDirs := ["/w"] } "/w"
        worldNumberSchema [("world", [("difficulty", Val.vInt 3)])]
        "properties").fs.fileExists "/w/server.properties" = true :=
  ⟨rfl, C3_save_recheck_existence_only.1 _ _ _ _ _ rfl⟩

/-- C9: for every parser-type identifier outside the registered set,
`read_game_config` returns an empty record and `save_game_config`
returns false, in both cases logging an error and raising nothing to
the caller (the functions are total). -/
theorem C9_unknown_parser_fails_closed (fs : FS) (serverPath : String)
    (schema : GameSchema) (data : Record) (pt : String)
    (h : pt ∉ supportedParserNames) :
    (readGameConfig fs serverPath schema pt).record = [] ∧
    (readGameConfig fs serverPath schema pt).errors ≠ [] ∧
    (saveGameConfig fs serverPath schema data pt).ok = false ∧
    (saveGameConfig fs serverPath schema data pt).errors ≠ [] := by
  simp only [supportedParserNames, List.mem_cons, List.not_mem_nil, or_false,
    not_or] at h
  obtain ⟨h1, h2, h3, h4, h5, h6⟩ := h
  exact ⟨(readGameConfig_unknown fs serverPath schema pt h1 h2 h3 h4 h5 h6).1,
         (readGameConfig_unknown fs serverPath schema pt h1 h2 h3 h4 h5 h6).2,
         (saveGameConfig_unknown fs serverPath schema data pt h1 h2 h3 h4 h5 h6).1,
         (saveGameConfig_unknown fs serverPath schema data pt h1 h2 h3 h4 h5 h6).2⟩

/-- C9 witness: the unregistered parser type `"ini"`. -/
theorem C9_unknown_parser_fails_closed_witness :
    ("ini" ∉ supportedParserNames) ∧
    ((readGameConfig { files := [] } "/s" worldNumberSchema "ini").record = [] ∧
     (readGameConfig { files := [] } "/s" worldNumberSchema "ini").errors ≠ [] ∧
     (saveGameConfig { files := [] } "/s" worldNumberSchema [] "ini").ok = false ∧
     (saveGameConfig { files := [] } "/s" worldNumberSchema [] "ini").errors ≠ []) :=
  ⟨by decide,
   C9_unknown_parser_fails_closed { files := [] } "/s" worldNumberSchema []
     "ini" (by decide)⟩

/-- C4: the nested codec round-trips the value
`["name=\"Creative World\"", "difficulty=2", "pvp=true"]` under a schema
declaring `name` as string and `difficulty`/`pvp` as non-string: encode
produces `(name="Creative World",difficulty=2,pvp=true)` and decoding
that text yields exactly the original elements in order. -/
theorem C4_nested_codec_roundtrip :
    formatNestedValue creativeNestedFields creativeNestedValue
      = some "(name=\"Creative World\",difficulty=2,pvp=true)" ∧
    parseNestedRaw (.vStr "(name=\"Creative World\",difficulty=2,pvp=true)")
      = some (.vList creativeNestedValue) :=
  ⟨rfl, rfl⟩

/-- C5: nested decoding splits on commas only outside quoted substrings
— `(a="x,y",b=2)` yields exactly the two tokens `a="x,y"` and `b=2` —
and each produced token is whitespace-trimmed, as
`( a=1 ,  b=2 )` shows. -/
theorem C5_quote_aware_split :
    parseNestedRaw (.vStr "(a=\"x,y\",b=2)")
      = some (.vList [.vStr "a=\"x,y\"", .vStr "b=2"]) ∧
    parseNestedRaw (.vStr "( a=1 ,  b=2 )")
      = some (.vList [.vStr "a=1", .vStr "b=2"]) :=
  ⟨rfl, rfl⟩

/-- C6, counterexample: the claim says a nested raw value that is a
string not wrapped in parentheses has its elements passed through
as-is.  The code's fallback branch (line 263) instead replaces such a
value by the empty list: decoding the string `a=1,b=2` discards both
elements. -/
theorem C6_unparenthesized_string_discarded :
    parseNestedRaw (.vStr "a=1,b=2") = some (.vList []) ∧
    some (Val.vList [])
      ≠ some (Val.vList [Val.vStr "a=1", Val.vStr "b=2"]) :=
  ⟨rfl, by simp⟩

/-- C7: the default record maps every section (its `key`, or `"default"`
when absent) to a mapping binding every declared field to its `default`
verbatim, or to the empty string when no default is declared (stated for
schemas whose section keys and per-section field names are distinct, the
shape the engine treats as unique lookup keys); consequently, for the
schema with section `world` holding `difficulty` (number, default 1) and
a nonexistent target file, `read_game_config` creates the file and
returns a record with `world.difficulty = 1`. -/
theorem C7_default_materialization :
    (∀ (schema : GameSchema) (s : SchemaSection) (f : FieldSpec),
        s ∈ schema.sections → f ∈ s.fields →
        (schema.sections.map sKey).Nodup →
        (s.fields.map FieldSpec.name).Nodup →
        recordLookup (getDefaultValues schema) (sKey s) f.name
          = some (f.default?.getD (.vStr ""))) ∧
    ((readGameConfig { files := [], writableDirs := ["/srv"] } "/srv"
        worldNumberSchema "properties").record
      = [("world", [("difficulty", .vInt 1)])] ∧
     (readGameConfig { files := [], writableDirs := ["/srv"] } "/srv"
        worldNumberSchema "properties").fs.fileExists "/srv/server.properties"
       = true) :=
  ⟨fun schema s f hs hf h1 h2 => getDefaultValues_lookup schema s f hs hf h1 h2,
   rfl, rfl⟩

/-- C7 witness: the general default-record statement instantiated at the
concrete schema of the scenario. -/
theorem C7_default_materialization_witness :
    recordLookup (getDefaultValues worldNumberSchema) "world" "difficulty"
      = some (Val.vInt 1) :=
  C7_default_materialization.1 worldNumberSchema
    { key? := some "world",
      fields := [{ name := "difficulty", type? := some "number",
                   default? := some (.vInt 1) }] }
    { name := "difficulty", type? := some "number",
      default? := some (.vInt 1) }
    (List.Mem.head _) (List.Mem.head _) (by decide) (by decide)

/-- C8: for the configobj and JSON adapters, a field declared in the
schema but not retrievable from the file's section is simply absent from
the decoded record's section — never filled with the schema default and
never an error (stated for schemas with distinct section keys; the
hypothesis `fieldAbsentIn` says the document's section, if present at
all, does not contain the field name). -/
theorem C8_absent_field_stays_absent (schema : GameSchema) (d : ConfigDoc)
    (s : SchemaSection) (f : FieldSpec)
    (hs : s ∈ schema.sections) (hf : f ∈ s.fields)
    (hnd : (schema.sections.map sKey).Nodup)
    (habs : fieldAbsentIn d (sKey s) f.name = true) :
    recordLookup (parseWithConfigobj (some (.iniDoc d)) schema) (sKey s) f.name
      = none ∧
    recordLookup (parseWithJson (some (.jsonDoc d)) schema) (sKey s) f.name
      = none := by
  have _hf := hf
  constructor
  · cases hl : sectionsLoopKeyed coerceConfigobjField d schema.sections [] with
    | none =>
      have hp : parseWithConfigobj (some (.iniDoc d)) schema = [] := by
        simp [parseWithConfigobj, configObjView, hl]
      rw [hp]
      rfl
    | some r =>
      have hp : parseWithConfigobj (some (.iniDoc d)) schema = r := by
        simp [parseWithConfigobj, configObjView, hl]
      rw [hp]
      exact sectionsLoopKeyed_absent_none _ d f.name schema.sections [] s r hl
        hs hnd habs
  · cases hl : sectionsLoopKeyed coerceStructuredField d schema.sections [] with
    | none =>
      have hp : parseWithJson (some (.jsonDoc d)) schema = [] := by
        simp [parseWithJson, jsonView, hl]
      rw [hp]
      rfl
    | some r =>
      have hp : parseWithJson (some (.jsonDoc d)) schema = r := by
        simp [parseWithJson, jsonView, hl]
      rw [hp]
      exact sectionsLoopKeyed_absent_none _ d f.name schema.sections [] s r hl
        hs hnd habs

/-- C8 witness: the schema declares `world.difficulty` but the file's
`world` section only holds `name`; the decoded section lacks
`difficulty` in both adapters. -/
theorem C8_absent_field_stays_absent_witness :
    recordLookup
      (parseWithConfigobj (some (.iniDoc absentFieldDoc)) absentFieldSchema)
      "world" "difficulty" = none ∧
    recordLookup
      (parseWithJson (some (.jsonDoc absentFieldDoc)) absentFieldSchema)
      "world" "difficulty" = none :=
  C8_absent_field_stays_absent absentFieldSchema absentFieldDoc
    { key? := some "world",
      fields := [{ name := "difficulty", default? := some (.vInt 1) },
                 { name := "name" }] }
    { name := "difficulty", default? := some (.vInt 1) }
    (List.Mem.head _) (List.Mem.head _) (by decide) (by decide)

/-- C6, amended: a format-native list value of a nested field is
recombined and re-split, passing its elements through unchanged
(for elements that are plain tokens: nonempty, strip-invariant, free of
commas and quotes, not starting with a parenthesis); a string value not
wrapped in parentheses is not passed through but decoded as the empty
list. -/
theorem C6_nested_passthrough_policy :
    (∀ s : String,
        (strHeadIs s '(' = false ∨ strLastIs s ')' = false) →
        parseNestedRaw (.vStr s) = some (.vList [])) ∧
    (∀ ts : List String, (∀ t ∈ ts, PlainNestedToken t) →
        parseNestedRaw (.vList (ts.map Val.vStr))
          = some (.vList (ts.map Val.vStr))) := by
  constructor
  · intro s h
    have hpc : parseNestedChars s.toList = .vList [] := by
      unfold parseNestedChars
      rw [if_neg]
      intro hcond
      rcases h with h | h
      · simp only [strHeadIs, decide_eq_false_iff_not] at h
        exact h hcond.1
      · simp only [strLastIs, decide_eq_false_iff_not] at h
        exact h hcond.2
    show some (parseNestedChars s.toList) = some (.vList [])
    rw [hpc]
  · intro ts h
    cases ts with
    | nil => rfl
    | cons t rest =>
      obtain ⟨ht1, ht2, ht3, ht4⟩ := h t (List.mem_cons_self _ _)
      have hrec : recombineNestedList (List.map Val.vStr (t :: rest))
          = some ('(' :: (intercalateChars ','
              ((t :: rest).map String.toList) ++ [')'])) := by
        simp only [List.map_cons, recombineNestedList, ht4, Bool.false_eq_true,
          if_false]
        rw [show Val.vStr t :: List.map Val.vStr rest
            = List.map Val.vStr (t :: rest) from (List.map_cons _ _ _).symm,
          allStrChars?_map]
        rfl
      show (recombineNestedList (List.map Val.vStr (t :: rest))).map
          (fun cs => parseNestedChars cs)
        = some (.vList ((t :: rest).map Val.vStr))
      rw [hrec]
      simp only [Option.map_some']
      congr 1
      have hne : intercalateChars ',' ((t :: rest).map String.toList) ≠ [] := by
        apply intercalate_ne_nil
        simpa using ht1
      unfold parseNestedChars
      rw [if_pos]
      · rw [if_neg]
        · have hd : (('(' :: (intercalateChars ','
              ((t :: rest).map String.toList) ++ [')'])).drop 1).dropLast
              = intercalateChars ',' ((t :: rest).map String.toList) := by
            simp [List.dropLast_concat]
          rw [hd]
          have hsplit : splitNestedParams
              (intercalateChars ',' ((t :: rest).map String.toList))
              = (t :: rest).map String.toList := by
            unfold splitNestedParams
            rw [splitNestedAux_intercalate]
            · simp
            · intro x hx
              rcases List.mem_map.mp hx with ⟨y, hy, rfl⟩
              obtain ⟨hy1, hy2, hy3, _⟩ := h y hy
              exact ⟨hy1, hy2, hy3⟩
          rw [hsplit]
          rw [List.map_map]
          congr 1
        · rw [show (('(' :: (intercalateChars ','
              ((t :: rest).map String.toList) ++ [')'])).drop 1).dropLast
              = intercalateChars ',' ((t :: rest).map String.toList) by
            simp [List.dropLast_concat]]
          simp only [List.isEmpty_iff]
          exact hne
      · constructor
        · simp
        · rw [show ('(' :: (intercalateChars ','
              ((t :: rest).map String.toList) ++ [')']))
              = ((('(' :: intercalateChars ','
                ((t :: rest).map String.toList))) ++ [')']) by simp]
          rw [List.getLast?_concat]


/-- C6 witness: a non-parenthesized string decodes to the empty list; a
native list of plain tokens passes through unchanged. -/
theorem C6_nested_passthrough_policy_witness :
    parseNestedRaw (.vStr "difficulty hard") = some (.vList []) ∧
    parseNestedRaw (.vList [.vStr "a=1", .vStr "b=2"])
      = some (.vList [.vStr "a=1", .vStr "b=2"]) :=
  ⟨C6_nested_passthrough_policy.1 "difficulty hard" (Or.inl (by decide)),
   C6_nested_passthrough_policy.2 ["a=1", "b=2"] (by decide)⟩

/-- C10: when encoding a nested field to JSON or TOML, each `key=value`
token is re-typed purely from its text shape after stripping one pair of
double quotes — `true`/`false` become booleans, all-digit strings become
integers, digit-and-dot strings become floats, the rest stay strings —
and the type declared in `nested_fields` is never consulted: the
sub-value `port`, declared `string`, is written as the native number
`8080` by both adapters. -/
theorem C10_nested_retype_ignores_declared_type :
    (saveWithJson { files := [] } "/d/srv.json" nestedRetypeData
        nestedRetypeSchema).fs.read? "/d/srv.json"
      = some (.jsonDoc [("srv", .vDict [("opts", .vDict nestedRetypeObj)])]) ∧
    (saveWithToml { files := [] } "/d/srv.toml" nestedRetypeData
        nestedRetypeSchema).fs.read? "/d/srv.toml"
      = some (.tomlDoc [("srv", .vDict [("opts", .vDict nestedRetypeObj)])]) :=
  ⟨rfl, rfl⟩

end GameConfig
